import Mathlib

/-!
Verification of the `TimeSpan` interval algebra of `xoutil.future.datetime`
(repository `merchisef`).  Dates are modelled as integers: the algebra only
uses the total order on dates, never calendar arithmetic, so any linearly
ordered type with decidable comparisons is a faithful stand-in for
`datetime.date`.
-/

namespace Merchisef

/-- A calendar date, modelled by its ordinal.  The source only compares
dates, so the integer order carries everything the algebra uses. -/
abbrev Date := Int

/-- `TimeSpan(start_date, end_date)`: both bounds are nullable
(`DateField(..., nullable=True)`); `None` means unbound on that side. -/
structure TimeSpan where
  start_date : Option Date
  end_date : Option Date
deriving DecidableEq, Repr

/-- Modelled from the spec: the `xoutil.infinity` module is not among the
sources (only its callers are); §4.1 of the spec fixes its contract:
`-∞ < p < +∞` for every concrete point `p`, `-∞ < +∞`, and each sentinel
equals only itself.  `Ext` is a point extended with the two sentinels. -/
inductive Ext : Type where
  | ninf : Ext
  | pt : Date → Ext
  | pinf : Ext
deriving DecidableEq, Repr

/-- `<=` on extended points (`Infinity` comparison contract of §4.1). -/
def Ext.le : Ext → Ext → Bool
  | .ninf, _ => true
  | _, .pinf => true
  | .pt a, .pt b => decide (a ≤ b)
  | .pt _, .ninf => false
  | .pinf, .pt _ => false
  | .pinf, .ninf => false

/-- `<` on extended points. -/
def Ext.lt : Ext → Ext → Bool
  | .ninf, .ninf => false
  | .ninf, _ => true
  | .pt _, .ninf => false
  | .pt a, .pt b => decide (a < b)
  | .pt _, .pinf => true
  | .pinf, _ => false

/-- Python's builtin `max(a, b)`: keeps `a` unless `b` is strictly
greater. -/
def Ext.max (a b : Ext) : Ext := if Ext.lt a b then b else a

/-- Python's builtin `min(a, b)`: keeps `a` unless `b` is strictly
smaller. -/
def Ext.min (a b : Ext) : Ext := if Ext.lt b a then b else a

/-- `self.start_date or -Infinity`: dates are truthy and `None` is falsy,
so an absent start bound becomes the `-Infinity` sentinel. -/
def orNegInf : Option Date → Ext
  | none => .ninf
  | some d => .pt d

/-- `self.end_date or Infinity`: an absent end bound becomes `Infinity`. -/
def orPosInf : Option Date → Ext
  | none => .pinf
  | some d => .pt d

/-- `if start is -Infinity: start = None` — back-substitution of the lower
sentinel.  (The `pinf` arm is unreachable: the max of two lower bounds is
never `Infinity`.) -/
def unNegInf : Ext → Option Date
  | .ninf => none
  | .pt d => some d
  | .pinf => none

/-- `if end is Infinity: end = None` — back-substitution of the upper
sentinel.  (The `ninf` arm is unreachable for upper bounds.) -/
def unPosInf : Ext → Option Date
  | .pinf => none
  | .pt d => some d
  | .ninf => none

/-- `TimeSpan.from_date(date)`: the span covering a single date. -/
def TimeSpan.from_date (d : Date) : TimeSpan := ⟨some d, some d⟩

/-- `TimeSpan.past_unbound`: `self.start_date is None`. -/
def TimeSpan.past_unbound (s : TimeSpan) : Bool := s.start_date.isNone

/-- `TimeSpan.future_unbound`: `self.end_date is None`. -/
def TimeSpan.future_unbound (s : TimeSpan) : Bool := s.end_date.isNone

/-- `TimeSpan.unbound`: `self.future_unbound or self.past_unbound`. -/
def TimeSpan.unbound (s : TimeSpan) : Bool :=
  s.future_unbound || s.past_unbound

/-- `TimeSpan.bound`: `not self.unbound`. -/
def TimeSpan.bound (s : TimeSpan) : Bool := !s.unbound

/-- `TimeSpan.valid`: when bound, `self.start_date <= self.end_date`,
otherwise `True`.  (When `bound` holds both fields are `some`; the
wildcard arm is unreachable.) -/
def TimeSpan.valid (s : TimeSpan) : Bool :=
  if s.bound then
    match s.start_date, s.end_date with
    | some a, some b => decide (a ≤ b)
    | _, _ => true
  else true

/-- The dynamically-typed argument universe the claims pass to `TimeSpan`
methods: a `datetime.date`, another `TimeSpan`, or the `EmptyTimeSpan`
singleton. -/
inductive PyVal : Type where
  | date : Date → PyVal
  | ts : TimeSpan → PyVal
  | empty : PyVal
deriving DecidableEq, Repr

/-- `TimeSpan.__contains__(self, other)`: when `other` is a date it is
tested against whichever bounds are present; any non-date argument
(another span, the Empty singleton) falls to the `else: return False`
branch. -/
def TimeSpan.contains (s : TimeSpan) : PyVal → Bool
  | .date p =>
    match s.start_date, s.end_date with
    | some a, some b => decide (a ≤ p) && decide (p ≤ b)
    | some a, none => decide (a ≤ p)
    | none, some b => decide (p ≤ b)
    | none, none => true
  | .ts _ => false
  | .empty => false

/-- `TimeSpan.__hash__`: `hash((self.start_date, self.end_date))`.  Date
hashing is injective on the value domain modelled here, so the hash is
modelled by the pair itself. -/
def TimeSpan.hashv (s : TimeSpan) : Option Date × Option Date :=
  (s.start_date, s.end_date)

/-- `TimeSpan.__eq__(self, other)`: a date argument is coerced with
`from_date`; then the hashes of the `(start, end)` pairs are compared.
The `EmptyTimeSpan` argument is modelled `false`: the source would feed
the singleton to `DateField`, which rejects it — that path is never
exercised by equalities whose left operand is a span in this
development. -/
def TimeSpan.eqPy (s : TimeSpan) : PyVal → Bool
  | .date d => decide (s.hashv = (TimeSpan.from_date d).hashv)
  | .ts t => decide (s.hashv = t.hashv)
  | .empty => false

/-- An Interval: either a `TimeSpan` or the `EmptyTimeSpan` singleton. -/
inductive Interval : Type where
  | span : TimeSpan → Interval
  | empty : Interval
deriving DecidableEq, Repr

/-- The span-vs-span arm of `TimeSpan.__and__`: extend the bounds with the
infinity sentinels, take `max` of starts and `min` of ends, and either
back-substitute `None` for a surviving sentinel or return the empty
span. -/
def TimeSpan.inter (a b : TimeSpan) : Interval :=
  let start := Ext.max (orNegInf a.start_date) (orNegInf b.start_date)
  let stop := Ext.min (orPosInf a.end_date) (orPosInf b.end_date)
  if Ext.le start stop then
    Interval.span ⟨unNegInf start, unPosInf stop⟩
  else
    Interval.empty

/-- Intersection (`&` / `*`) on Intervals.  `_EmptyTimeSpan.__mul__`
returns the singleton for any Interval argument; `TimeSpan.__and__`
returns `other` unchanged when it is the singleton, and otherwise runs
the bound computation. -/
def Interval.inter : Interval → Interval → Interval
  | .empty, _ => .empty
  | .span _, .empty => .empty
  | .span a, .span b => TimeSpan.inter a b

/-- `_EmptyTimeSpan.__eq__(self, which)`: the singleton is equal only to
itself (`self is which`). -/
def emptyEq (x : Interval) : Bool :=
  match x with
  | .empty => true
  | .span _ => false

/-- `_EmptyTimeSpan.__ne__`: `not (self == which)`. -/
def emptyNe (x : Interval) : Bool := !(emptyEq x)

/-- `_EmptyTimeSpan.__le__(self, which)`: `True` for every Interval — the
empty set is a subset of any other set. -/
def emptyLe (_ : Interval) : Bool := true

/-- `_EmptyTimeSpan.__ge__ = covers = __eq__`: the singleton is a superset
only of itself. -/
def emptyGe (x : Interval) : Bool := emptyEq x

/-- `_EmptyTimeSpan.__lt__ = isdisjoint = __ne__`: disjoint with any set
but itself. -/
def emptyIsdisjoint (x : Interval) : Bool := emptyNe x

/-- `_EmptyTimeSpan.__gt__(self, which)`: the source returns `True` for
every Interval argument, although its own comment announces "The empty
set is a *proper* superset of no one". -/
def emptyGt (_ : Interval) : Bool := true

/-- Python `==` between two Interval values, dispatched as the source
does: two spans compare by the hash of their `(start, end)` pairs; the
Empty singleton equals only itself.  The span-on-the-left vs Empty case
raises `TypeError` in the source (`DateField` rejects the singleton); it
is modelled as `false`, matching the defined symmetric case, and no
theorem below depends on that arm. -/
def Interval.eqb : Interval → Interval → Bool
  | .span a, .span b => decide (a.hashv = b.hashv)
  | .empty, x => emptyEq x
  | .span _, .empty => false

/-- Containment of a single date by an Interval:
`_EmptyTimeSpan.__contains__` is constantly `False`; a span uses
`TimeSpan.__contains__` on the date. -/
def Interval.containsPoint : Interval → Date → Bool
  | .empty, _ => false
  | .span s, p => s.contains (.date p)

/-- Validity of an Interval: the Empty interval carries no bounds and is
vacuously valid; a span uses `TimeSpan.valid`. -/
def Interval.valid : Interval → Bool
  | .empty => true
  | .span s => s.valid

/-- `TimeSpan.intersection(self, *others)`:
`reduce(operator.mul, others, self)` — a left fold of `&` with `self` as
the initial value. -/
def TimeSpan.intersection (s : TimeSpan) (others : List Interval) : Interval :=
  others.foldl Interval.inter (Interval.span s)

/-- Modelled from the spec: the standalone `intersect_many` of §4.4 and
its `EmptyFoldError` of §7 have no standalone realization in the sources
(the repository realizes the fold as the method `TimeSpan.intersection`).
Per the spec it is the left-fold of `intersect` starting from the first
element, and an empty sequence is a caller error signalled by
`EmptyFoldError`, modelled as the `Except` error case. -/
def intersect_many : List Interval → Except Unit Interval
  | [] => .error ()
  | x :: xs => .ok (xs.foldl Interval.inter x)

/-! ## Spec-side description of the intersection algorithm (§4.4) -/

/-- Spec §4.4 step 1: `lo = max(a.start, b.start)` under extended-point
comparison where an absent bound is `-∞`; the result is kept with the
back-substitution of step 3 already folded in (`lo` is absent exactly
when it is `-∞`, i.e. when both starts are absent). -/
def specLo : Option Date → Option Date → Option Date
  | none, y => y
  | some x, none => some x
  | some x, some y => some (Max.max x y)

/-- Spec §4.4 step 2: `hi = min(a.end, b.end)` under extended-point
comparison where an absent bound is `+∞`, with step 3's back-substitution
folded in. -/
def specHi : Option Date → Option Date → Option Date
  | none, y => y
  | some x, none => some x
  | some x, some y => some (Min.min x y)

/-- Spec §4.4 step 3's guard: `lo <= hi` under extended comparison, where
an absent `lo` is `-∞` and an absent `hi` is `+∞`. -/
def specLe : Option Date → Option Date → Bool
  | none, _ => true
  | some _, none => true
  | some a, some b => decide (a ≤ b)

/-- Spec §4.4, the whole algorithm: `Span(lo, hi)` when `lo <= hi`,
otherwise `Empty`. -/
def spec_intersect (a b : TimeSpan) : Interval :=
  let lo := specLo a.start_date b.start_date
  let hi := specHi a.end_date b.end_date
  if specLe lo hi then Interval.span ⟨lo, hi⟩ else Interval.empty

/-! ## Bridging lemmas -/

/-- The sentinel-based lower bound of the source equals the spec's
option-level `lo` with back-substitution. -/
lemma max_orNegInf_eq (x y : Option Date) :
    Ext.max (orNegInf x) (orNegInf y) = orNegInf (specLo x y) := by
  rcases x with _ | a <;> rcases y with _ | b
  · rfl
  · rfl
  · rfl
  · by_cases h : a < b
    · simp [orNegInf, specLo, Ext.max, Ext.lt, h, max_eq_right h.le]
    · simp [orNegInf, specLo, Ext.max, Ext.lt, h,
        max_eq_left (le_of_not_lt h)]

/-- The sentinel-based upper bound of the source equals the spec's
option-level `hi` with back-substitution. -/
lemma min_orPosInf_eq (x y : Option Date) :
    Ext.min (orPosInf x) (orPosInf y) = orPosInf (specHi x y) := by
  rcases x with _ | a <;> rcases y with _ | b
  · rfl
  · rfl
  · rfl
  · by_cases h : b < a
    · simp [orPosInf, specHi, Ext.min, Ext.lt, h, min_eq_right h.le]
    · simp [orPosInf, specHi, Ext.min, Ext.lt, h,
        min_eq_left (le_of_not_lt h)]

/-- Extended `<=` between a lower and an upper bound agrees with the
spec's `lo <= hi` guard. -/
lemma le_orNegInf_orPosInf (u v : Option Date) :
    Ext.le (orNegInf u) (orPosInf v) = specLe u v := by
  rcases u with _ | a <;> rcases v with _ | b <;>
    simp [orNegInf, orPosInf, specLe, Ext.le]

lemma unNegInf_orNegInf (u : Option Date) :
    unNegInf (orNegInf u) = u := by
  rcases u with _ | a <;> simp [orNegInf, unNegInf]

lemma unPosInf_orPosInf (u : Option Date) :
    unPosInf (orPosInf u) = u := by
  rcases u with _ | a <;> simp [orPosInf, unPosInf]

/-- The source's sentinel computation realizes the spec's algorithm. -/
lemma inter_eq_spec (a b : TimeSpan) :
    TimeSpan.inter a b = spec_intersect a b := by
  simp only [TimeSpan.inter, spec_intersect, max_orNegInf_eq,
    min_orPosInf_eq, le_orNegInf_orPosInf, unNegInf_orNegInf,
    unPosInf_orPosInf]

lemma specLo_self (x : Option Date) : specLo x x = x := by
  rcases x with _ | a <;> simp [specLo]

lemma specHi_self (x : Option Date) : specHi x x = x := by
  rcases x with _ | a <;> simp [specHi]

/-- `TimeSpan.valid` is exactly the spec's extended `lo <= hi` guard
applied to the span's own bounds. -/
lemma valid_eq_specLe (s : TimeSpan) :
    s.valid = specLe s.start_date s.end_date := by
  rcases s with ⟨x, y⟩
  rcases x with _ | a <;> rcases y with _ | b <;> rfl

/-- The date branch of `TimeSpan.__contains__` agrees with the spec's
`lo <= hi` guard of the intersection with the degenerate span at that
date. -/
lemma contains_eq_specLe (s : TimeSpan) (p : Date) :
    s.contains (.date p) = true ↔
      specLe (specLo s.start_date (some p)) (specHi s.end_date (some p))
        = true := by
  rcases s with ⟨x, y⟩
  rcases x with _ | a <;> rcases y with _ | b <;>
    simp [TimeSpan.contains, specLo, specHi, specLe, max_le_iff, le_min_iff]
  constructor
  · rintro ⟨h1, h2⟩
    exact ⟨⟨h1.trans h2, h2⟩, h1⟩
  · rintro ⟨⟨h1, h2⟩, h3⟩
    exact ⟨h3, h2⟩

/-! ## The claims -/

/-- C1: `TimeSpan.__and__` returns exactly what the spec describes — the
span from the max of the starts and the min of the ends under
extended-point comparison with sentinels substituted back to `None`, and
`Empty` when the bounds cross; in particular the intersection of two
universal spans is the universal span. -/
theorem C1_inter_matches_spec :
    (∀ a b : TimeSpan,
      Interval.inter (Interval.span a) (Interval.span b) = spec_intersect a b) ∧
    Interval.inter (Interval.span ⟨none, none⟩) (Interval.span ⟨none, none⟩)
      = Interval.span ⟨none, none⟩ :=
  ⟨fun a b => inter_eq_spec a b, by decide⟩

/-- C2: the Empty interval is absorbing for intersection on both sides,
over every Interval including Empty itself. -/
theorem C2_empty_absorbing (x : Interval) :
    Interval.inter Interval.empty x = Interval.empty ∧
      Interval.inter x Interval.empty = Interval.empty := by
  rcases x with s | _ <;> exact ⟨rfl, rfl⟩

/-- C3: Empty is a subset of every Interval and a superset only of
itself, but `_EmptyTimeSpan.__gt__` — the proper-superset test — returns
`True` on every Interval (here at the universal span, which differs from
Empty), contradicting the claim and the source's own comment that the
empty set is a proper superset of no one. -/
theorem C3_empty_order_and_gt_bug :
    (∀ x : Interval, emptyLe x = true) ∧
    (∀ x : Interval, emptyGe x = true ↔ x = Interval.empty) ∧
    (emptyGt (Interval.span ⟨none, none⟩) = true ∧
      Interval.span ⟨none, none⟩ ≠ Interval.empty) := by
  refine ⟨fun x => rfl, fun x => ?_, rfl, by decide⟩
  rcases x with s | _ <;> simp [emptyGe, emptyEq]

/-- C4 counterexample: for the invalid bound span `[1, 0]` (start after
end), intersecting it with itself yields Empty, which the source's
equality does not identify with the span — so `intersect(a, a) == a`
fails on this Interval, refuting the claim as stated. -/
theorem C4_counterexample :
    Interval.eqb
      (Interval.inter (Interval.span ⟨some 1, some 0⟩)
        (Interval.span ⟨some 1, some 0⟩))
      (Interval.span ⟨some 1, some 0⟩) = false := by decide

/-- C4 (amended): intersection is idempotent on every Interval that is
Empty or a valid span; only invalid bound spans (start after end)
escape. -/
theorem C4_inter_idempotent_on_valid (a : Interval)
    (h : Interval.valid a = true) :
    Interval.eqb (Interval.inter a a) a = true := by
  rcases a with s | _
  · have hle : specLe s.start_date s.end_date = true := by
      rw [← valid_eq_specLe]; exact h
    have hsame : Interval.inter (Interval.span s) (Interval.span s)
        = Interval.span s := by
      show TimeSpan.inter s s = Interval.span s
      rw [inter_eq_spec]
      unfold spec_intersect
      rw [specLo_self, specHi_self]
      simp [hle]
    rw [hsame]
    simp [Interval.eqb]
  · rfl

/-- C4 witness: the valid span `[0, 1]` satisfies the amended idempotence
law. -/
theorem C4_witness :
    Interval.valid (Interval.span ⟨some 0, some 1⟩) = true ∧
    Interval.eqb
      (Interval.inter (Interval.span ⟨some 0, some 1⟩)
        (Interval.span ⟨some 0, some 1⟩))
      (Interval.span ⟨some 0, some 1⟩) = true :=
  ⟨by decide, C4_inter_idempotent_on_valid _ (by decide)⟩

/-- C5: an Interval contains a date exactly when its intersection with
the degenerate span at that date is not Empty. -/
theorem C5_contains_iff_inter_nonempty (p : Date) (a : Interval) :
    Interval.containsPoint a p = true ↔
      Interval.inter a (Interval.span (TimeSpan.from_date p))
        ≠ Interval.empty := by
  rcases a with s | _
  · show s.contains (.date p) = true ↔
      TimeSpan.inter s (TimeSpan.from_date p) ≠ Interval.empty
    rw [inter_eq_spec, contains_eq_specLe]
    simp only [spec_intersect, TimeSpan.from_date]
    split
    · next hc => simp [hc]
    · next hc => simp [hc]
  · simp [Interval.containsPoint, Interval.inter]

/-- C6 counterexample: `_EmptyTimeSpan.isdisjoint` is aliased to `__ne__`,
so Empty is reported as not disjoint from itself — refuting the claim
that disjointness of Empty with every Interval, itself included, is
true. -/
theorem C6_counterexample : emptyIsdisjoint Interval.empty = false := rfl

/-- C6 (amended): `Empty.isdisjoint(x)` is true exactly for the Intervals
other than Empty itself; at Empty it returns false. -/
theorem C6_empty_isdisjoint (x : Interval) :
    emptyIsdisjoint x = true ↔ x ≠ Interval.empty := by
  rcases x with s | _ <;> simp [emptyIsdisjoint, emptyNe, emptyEq]

/-- C7: `intersect_many` on a non-empty sequence is the left-fold of
intersection starting from the first element — exactly what the method
`TimeSpan.intersection` computes with `self` first — and on the empty
sequence it signals `EmptyFoldError` instead of returning a value. -/
theorem C7_intersect_many_fold :
    (∀ (s : TimeSpan) (others : List Interval),
      intersect_many (Interval.span s :: others)
        = Except.ok (TimeSpan.intersection s others)) ∧
    intersect_many ([] : List Interval) = Except.error () :=
  ⟨fun _ _ => rfl, rfl⟩

/-- C8: `TimeSpan.valid` holds exactly when the span is unbound on at
least one side, or both bounds are present and start is at most end. -/
theorem C8_valid_iff (s : TimeSpan) :
    s.valid = true ↔
      s.start_date = none ∨ s.end_date = none ∨
        ∃ a b, s.start_date = some a ∧ s.end_date = some b ∧ a ≤ b := by
  rcases s with ⟨x, y⟩
  rcases x with _ | a <;> rcases y with _ | b <;>
    simp [TimeSpan.valid, TimeSpan.bound, TimeSpan.unbound,
      TimeSpan.future_unbound, TimeSpan.past_unbound]

/-- C9: `TimeSpan.__contains__` is false on every non-date argument —
for every pair of spans, membership of one span in the other is false
(regardless of any subset relation), and so is membership of the Empty
singleton. -/
theorem C9_contains_false_for_non_dates (a b : TimeSpan) :
    TimeSpan.contains a (PyVal.ts b) = false ∧
    TimeSpan.contains a PyVal.empty = false :=
  ⟨rfl, rfl⟩

/-- C10: span equality coerces a date argument to the degenerate span
covering it: comparing against the date gives the same answer as
comparing against `from_date` of it, and `from_date d == d` always
holds. -/
theorem C10_eq_coerces_dates (s : TimeSpan) (d : Date) :
    TimeSpan.eqPy s (PyVal.date d)
        = TimeSpan.eqPy s (PyVal.ts (TimeSpan.from_date d)) ∧
    TimeSpan.eqPy (TimeSpan.from_date d) (PyVal.date d) = true :=
  ⟨rfl, by simp [TimeSpan.eqPy]⟩

end Merchisef
